import Mathlib

/-!
Shallow embedding of the NutriTrackAI nutrition core
(`src/core/utils.py`, `src/core/schemas.py`, `src/core/embeddings.py`,
`src/tools/calorie_tracker.py`, `src/tools/meal_planner.py`,
`src/tools/cooking_assistant.py`) and proofs about the macro pipeline.

Conventions of the embedding:
* Python floats are idealised as rationals (`ℚ`); `round(x, 2)` is modelled
  as exact round-half-to-even on rationals, matching the decimal semantics
  the code relies on.
* Python dicts are association lists in insertion order; assignment to an
  existing key updates the value in place, assignment to a fresh key appends.
* Fallible Python functions (those that `raise`) return `Except String`.
-/

namespace NutriTrack

/-! ### Python string primitives, over `List Char`

Lean's own `String.toLower`, `String.trim` and `String.splitOn` are
position-based and do not reduce well, so the Python string operations the
code uses are modelled directly on the character list of a `String`. -/

/-- Python `str.lower()`. -/
def pyLower (s : String) : String := String.mk (s.data.map Char.toLower)

/-- Trim whitespace from both ends of a character list. -/
def trimChars (l : List Char) : List Char :=
  ((l.dropWhile Char.isWhitespace).reverse.dropWhile Char.isWhitespace).reverse

/-- Python `str.strip()`. -/
def pyStrip (s : String) : String := String.mk (trimChars s.data)

/-- Python `needle in hay` on character lists: `[]` is contained everywhere. -/
def containsChars (needle : List Char) : List Char → Bool
  | [] => needle.isEmpty
  | c :: rest => needle.isPrefixOf (c :: rest) || containsChars needle rest

/-- Python `needle in hay` for strings. -/
def pyContains (needle hay : String) : Bool := containsChars needle.data hay.data

/-- Replace each leftmost non-overlapping occurrence of `pat` (non-empty) by
`rep`, as Python `str.replace` does.  The fuel argument is the length of the
remaining input; every step consumes at least one character, so the fuel
never runs out on the initial call. -/
def replaceFuel (pat rep : List Char) : ℕ → List Char → List Char
  | 0, l => l
  | _ + 1, [] => []
  | n + 1, c :: rest =>
    if pat.isPrefixOf (c :: rest) && !pat.isEmpty then
      rep ++ replaceFuel pat rep n (rest.drop (pat.length - 1))
    else
      c :: replaceFuel pat rep n rest

/-- Replace each leftmost non-overlapping occurrence of `pat` by `rep`. -/
def replaceChars (pat rep l : List Char) : List Char :=
  replaceFuel pat rep l.length l

/-- Python `str.replace` for strings. -/
def pyReplace (s pat rep : String) : String :=
  String.mk (replaceChars pat.data rep.data s.data)

/-- Split a character list at every occurrence of the character `sep`,
keeping empty chunks, as Python `str.split(",")` does. -/
def splitOnChar (sep : Char) : List Char → List (List Char)
  | [] => [[]]
  | c :: rest =>
    let parts := splitOnChar sep rest
    if c = sep then [] :: parts
    else
      match parts with
      | [] => [[c]]
      | p :: ps => (c :: p) :: ps

/-- Python `s.split(",")`. -/
def pySplitComma (s : String) : List String :=
  (splitOnChar ',' s.data).map String.mk

/-- Split a character list on runs of whitespace, discarding empty chunks, as
Python's no-argument `str.split()` does. -/
def splitWhitespace : List Char → List (List Char)
  | [] => []
  | c :: rest =>
    if c.isWhitespace then splitWhitespace rest
    else
      match splitWhitespace rest with
      | [] => [[c]]
      | p :: ps =>
        match rest with
        | [] => [[c]]
        | d :: _ => if d.isWhitespace then [c] :: p :: ps else (c :: p) :: ps

/-- Python `s.split()` for strings. -/
def pySplitWs (s : String) : List String := (splitWhitespace s.data).map String.mk

/-- Python `" ".join(parts)`. -/
def pyJoin (sep : String) (parts : List String) : String :=
  String.mk ((parts.map String.data).intersperse sep.data).flatten

/-- Python `str.rstrip("s")`: drop every trailing `'s'`. -/
def rstripS (s : String) : String :=
  String.mk (s.data.reverse.dropWhile (fun c => c = 's')).reverse

/-- Python `str.title()`: uppercase every character that follows a
non-alphabetic character, lowercase the rest. -/
def titleChars : Bool → List Char → List Char
  | _, [] => []
  | prevAlpha, c :: rest =>
    (if c.isAlpha then (if prevAlpha then c.toLower else c.toUpper) else c) ::
      titleChars c.isAlpha rest

/-- Python `str.title()` for strings. -/
def pyTitle (s : String) : String := String.mk (titleChars false s.data)

/-- Round-half-to-even to an integer, the tie-breaking used by Python's
builtin `round`. -/
def roundHalfEven (q : ℚ) : ℤ :=
  let n := ⌊q⌋
  let frac := q - n
  if frac < 1/2 then n
  else if 1/2 < frac then n + 1
  else if n % 2 = 0 then n else n + 1

/-- Model of Python `round(x, 2)`: round-half-to-even at two decimal places. -/
def round2 (q : ℚ) : ℚ := (roundHalfEven (q * 100) : ℚ) / 100

/-! ### Python dict as an insertion-ordered association list -/

/-- Value stored under key `k` in a Python dict, if any. -/
def dlookup (d : List (String × ℚ)) (k : String) : Option ℚ :=
  (d.find? (fun p => p.1 == k)).map Prod.snd

/-- Model of `dict.get(k, 0.0)`. -/
def dget (d : List (String × ℚ)) (k : String) : ℚ :=
  (dlookup d k).getD 0

/-- Model of `defaultdict(float)` update `d[k] += x`: add into an existing
entry in place, or append a fresh entry at the end. -/
def dinc (d : List (String × ℚ)) (k : String) (x : ℚ) : List (String × ℚ) :=
  match d with
  | [] => [(k, x)]
  | (k', v) :: rest => if k' = k then (k', v + x) :: rest else (k', v) :: dinc rest k x

/-! ### `src/core/utils.py` -/

/-- `GRAM_EQUIVALENTS` from `src/core/utils.py`, in source order. -/
def GRAM_EQUIVALENTS : List (String × ℚ) :=
  [("g", 1), ("gram", 1), ("grams", 1), ("kg", 1000), ("mg", 1/1000),
   ("lb", 453592/1000), ("oz", 283495/10000), ("ml", 1), ("l", 1000),
   ("cup", 240), ("tbsp", 15), ("tsp", 5), ("piece", 1), ("pcs", 1), ("unit", 1)]

/-- Lookup in `GRAM_EQUIVALENTS`. -/
def gramFactor (u : String) : Option ℚ :=
  (GRAM_EQUIVALENTS.find? (fun p => p.1 == u)).map Prod.snd

/-- `normalize_unit` from `src/core/utils.py`.  The first branch handles the
volume units, the second any remaining key of `GRAM_EQUIVALENTS`; both
multiply by the table factor, unknown units pass through unchanged. -/
def normalize_unit (quantity : ℚ) (unit : String) : ℚ × String :=
  let u := pyLower unit
  if u ∈ ["cup", "tbsp", "tsp", "ml", "l"] then
    (quantity * ((gramFactor u).getD 0), "g")
  else
    match gramFactor u with
    | some f => (quantity * f, "g")
    | none => (quantity, unit)

/-- The four keys summed by `macro_totals`, in source order. -/
def MACRO_KEYS : List String := ["calories", "protein_g", "carb_g", "fat_g"]

/-- An item passed to `macro_totals`: a dict that may be missing any of the
four macro fields (`item.get(key, 0.0)` treats a missing field as 0). -/
structure ItemDict where
  calories : Option ℚ := none
  protein_g : Option ℚ := none
  carb_g : Option ℚ := none
  fat_g : Option ℚ := none
deriving Repr, DecidableEq

/-- Model of `item.get(key, 0.0)` for an `ItemDict`. -/
def ItemDict.get (it : ItemDict) (k : String) : ℚ :=
  if k = "calories" then it.calories.getD 0
  else if k = "protein_g" then it.protein_g.getD 0
  else if k = "carb_g" then it.carb_g.getD 0
  else if k = "fat_g" then it.fat_g.getD 0
  else 0

/-- `macro_totals` from `src/core/utils.py`: fold the items into a
`defaultdict(float)` and round every resulting value to 2 decimals. -/
def macro_totals (items : List ItemDict) : List (String × ℚ) :=
  (items.foldl (fun d it => MACRO_KEYS.foldl (fun d k => dinc d k (it.get k)) d) []).map
    (fun p => (p.1, round2 p.2))

/-- Keys of the `macro_delta` loop, in source order. -/
def DELTA_KEYS : List String := ["calories", "protein", "carbs", "fat"]

/-- The totals key computed by `macro_delta`:
`key if key == "calories" else f"{key[:-1]}_g"`. -/
def totalKeyFor (k : String) : String :=
  if k = "calories" then k else String.mk (k.data.dropLast) ++ "_g"

/-- `macro_delta` from `src/core/utils.py`.  The source expression is
`round(total_key and totals.get(total_key, 0.0) - target_val, 2)`; since
`total_key` is always a non-empty string (truthy), Python's `and` returns its
right operand, so the expression equals the rounded difference. -/
def macro_delta (targets totals : List (String × ℚ)) : List (String × ℚ) :=
  DELTA_KEYS.map (fun k => (k, round2 (dget totals (totalKeyFor k) - dget targets k)))

/-- Modelled from the spec: the clean `macro_delta` reimplementation the spec
prescribes, `diff[k] = totals[k'] - targets[k]` rounded to 2 decimals, where
`k'` is the corresponding totals field (`calories`, `protein_g`, `carb_g`,
`fat_g`). -/
def macro_delta_spec (targets totals : List (String × ℚ)) : List (String × ℚ) :=
  [("calories", round2 (dget totals "calories" - dget targets "calories")),
   ("protein", round2 (dget totals "protein_g" - dget targets "protein")),
   ("carbs", round2 (dget totals "carb_g" - dget targets "carbs")),
   ("fat", round2 (dget totals "fat_g" - dget targets "fat"))]

/-- `clamp_calories` from `src/core/utils.py`. -/
def clamp_calories (calories : ℚ) (minimum : ℚ := 1200) : ℚ :=
  max calories minimum

/-! ### `src/core/schemas.py` -/

/-- `MealItem` from `src/core/schemas.py`. -/
structure MealItem where
  name : String
  quantity : ℚ
  unit : String
  calories : ℚ
  protein_g : ℚ
  carb_g : ℚ
  fat_g : ℚ
  estimated : Bool := false
deriving Repr, DecidableEq, Inhabited

/-- `Meal.totals` from `src/core/schemas.py`: sum each macro over the items
and round each of the four sums to 2 decimals. -/
def mealTotals (items : List MealItem) : List (String × ℚ) :=
  [("calories", round2 ((items.map MealItem.calories).sum)),
   ("protein_g", round2 ((items.map MealItem.protein_g).sum)),
   ("carb_g", round2 ((items.map MealItem.carb_g).sum)),
   ("fat_g", round2 ((items.map MealItem.fat_g).sum))]

/-- `PlanMeal` from `src/core/schemas.py`. -/
structure PlanMeal where
  name : String
  meal_type : String
  items : List MealItem
  notes : Option String := none
deriving Repr, DecidableEq, Inhabited

/-- `PlanMeal.totals` delegates to `Meal.totals` over the same items. -/
def PlanMeal.totals (m : PlanMeal) : List (String × ℚ) := mealTotals m.items

/-- `PlanDay` from `src/core/schemas.py`; the calendar date is modelled as an
integer day number. -/
structure PlanDay where
  date : ℤ
  meals : List PlanMeal
deriving Repr, DecidableEq, Inhabited

/-- `PlanDay.totals`: start from a dict holding the four keys at 0.0, add
each meal's (already rounded) totals, then round every value again.  The
source indexes `macros["calories"]` directly; `dget` agrees because
`Meal.totals` always carries the four keys. -/
def PlanDay.totals (d : PlanDay) : List (String × ℚ) :=
  let t := d.meals.foldl
    (fun (t : ℚ × ℚ × ℚ × ℚ) m =>
      (t.1 + dget m.totals "calories", t.2.1 + dget m.totals "protein_g",
       t.2.2.1 + dget m.totals "carb_g", t.2.2.2 + dget m.totals "fat_g"))
    (0, 0, 0, 0)
  [("calories", round2 t.1), ("protein_g", round2 t.2.1),
   ("carb_g", round2 t.2.2.1), ("fat_g", round2 t.2.2.2)]

/-! ### `src/tools/calorie_tracker.py`: the nutrition reference store -/

/-- The four per-100g macro values stored for a reference food. -/
structure Macros where
  calories : ℚ
  protein_g : ℚ
  carb_g : ℚ
  fat_g : ℚ
deriving Repr, DecidableEq, Inhabited

/-- Python dict assignment `d[k] = v`: update the first (and in a dict,
only) entry with key `k` in place, keeping its position, else append. -/
def dictSet {β : Type} : List (String × β) → String → β → List (String × β)
  | [], k, v => [(k, v)]
  | (k', v') :: rest, k, v =>
    if k' = k then (k', v) :: rest else (k', v') :: dictSet rest k v

/-- Python dict lookup `d.get(k)` on an association list. -/
def alookup {β : Type} (d : List (String × β)) (k : String) : Option β :=
  (d.find? (fun p => p.1 == k)).map Prod.snd

/-- Insert `x` after every element `y` with `le y x`, i.e. keep stable order
among ties; folding this over a list is a stable insertion sort, the model
of Python's stable `sorted`/`list.sort`. -/
def insertStable {α : Type} (le : α → α → Bool) (x : α) : List α → List α
  | [] => [x]
  | y :: ys => if le y x then y :: insertStable le x ys else x :: y :: ys

/-- Stable sort by the boolean comparator `le`. -/
def stableSort {α : Type} (le : α → α → Bool) (l : List α) : List α :=
  l.foldl (fun acc x => insertStable le x acc) []

/-- Lexicographic code-point comparison of character lists, Python's `<=` on
strings. -/
def leChars : List Char → List Char → Bool
  | [], _ => true
  | _ :: _, [] => false
  | c :: cs, d :: ds => if c = d then leChars cs ds else decide (c < d)

/-- The sort key of `_write_reference`:
`sorted(raw.items(), key=lambda item: item[0].lower())`. -/
def leLowerName (a b : String × Macros) : Bool :=
  leChars (pyLower a.1).data (pyLower b.1).data

/-- The persisted reference dataset `_REFERENCE_RAW`: display-name keyed, in
dict insertion order.  The derived caches `_REFERENCE_CACHE` and
`_REFERENCE_NAME_MAP` are recomputed deterministically from it (below), so
the store state is just the raw dict. -/
structure RefStore where
  raw : List (String × Macros)
deriving Repr, DecidableEq, Inhabited

/-- `_REFERENCE_CACHE`: the dict comprehension
`{name.lower(): values for name, values in raw.items()}` — first occurrence
fixes the position, the last occurrence of a key wins the value. -/
def pyDictLower (raw : List (String × Macros)) : List (String × Macros) :=
  raw.foldl (fun acc p => dictSet acc (pyLower p.1) p.2) []

/-- `_REFERENCE_NAME_MAP`: `{name.lower(): name for name in raw}`. -/
def pyNameMap (raw : List (String × Macros)) : List (String × String) :=
  raw.foldl (fun acc p => dictSet acc (pyLower p.1) p.1) []

/-- `_reference_display_name`: the display name recorded for a lowercase
key, defaulting to `key.title()`. -/
def refDisplayName (store : RefStore) (key : String) : String :=
  (alookup (pyNameMap store.raw) key).getD (pyTitle key)

/-- `_match_food` from `src/tools/calorie_tracker.py`: exact lowercase match
in the cache first, else the first key containing the token as a substring
(dict iteration order), else the unknown-food error. -/
def _match_food (store : RefStore) (token : String) : Except String (String × Macros) :=
  let data := pyDictLower store.raw
  let tl := pyStrip (pyLower token)
  match alookup data tl with
  | some v => Except.ok (refDisplayName store tl, v)
  | none =>
    match data.find? (fun p => pyContains tl p.1) with
    | some p => Except.ok (refDisplayName store p.1, p.2)
    | none => Except.error ("Unknown food item: " ++ token ++ ". Add it to the nutrition reference below.")

/-- `add_reference_food` from `src/tools/calorie_tracker.py`: validate the
name and reference grams, rescale the macros to a 100g basis, assign into
the raw dict and persist via `_write_reference`, which re-sorts the dict by
lowercased name (Python's stable sort). -/
def add_reference_food (store : RefStore) (name : String)
    (calories protein_g carb_g fat_g : ℚ) (reference_grams : ℚ := 100) :
    Except String RefStore :=
  let display_name := pyStrip name
  if display_name = "" then Except.error "Food name is required."
  else if reference_grams ≤ 0 then Except.error "Reference grams must be greater than zero."
  else
    let factor := 100 / reference_grams
    let raw := dictSet store.raw display_name
      ⟨calories * factor, protein_g * factor, carb_g * factor, fat_g * factor⟩
    Except.ok ⟨stableSort leLowerName raw⟩

/-! ### `_parse_description` from `src/tools/calorie_tracker.py` -/

/-- Numeric value of a digit list. -/
def digitsVal (cs : List Char) : ℕ :=
  cs.foldl (fun a c => a * 10 + (c.toNat - 48)) 0

/-- Simplified model of Python `float(token)`: an optional sign followed by
digits with at most one decimal point — the numeric literals that occur as
quantity tokens in meal descriptions (exponent/inf/nan forms out of scope). -/
def parseFloat? (t : String) : Option ℚ :=
  let body := match t.data with
    | '-' :: r => r
    | '+' :: r => r
    | cs => cs
  let sign : ℚ := match t.data with
    | '-' :: _ => -1
    | _ => 1
  let intPart := body.takeWhile Char.isDigit
  let rest := body.dropWhile Char.isDigit
  match rest with
  | [] => if intPart.isEmpty then none else some (sign * digitsVal intPart)
  | '.' :: frac =>
    if frac.all Char.isDigit && !(intPart.isEmpty && frac.isEmpty) then
      some (sign * ((digitsVal intPart : ℚ) + (digitsVal frac : ℚ) / (10 : ℚ) ^ frac.length))
    else none
  | _ => none

/-- The unit keywords recognised by the token loop of `_parse_description`. -/
def PARSE_UNITS : List String :=
  ["g", "gram", "grams", "ml", "cup", "cups", "tbsp", "tsp", "oz"]

/-- The token-classification loop of `_parse_description`: a float token
updates the quantity (default 1.0, last wins), a unit keyword sets the unit
(lowercased, trailing "s" stripped, default "serving"), every other token
joins the food-name sequence. -/
def classifyTokens (tokens : List String) : ℚ × String × List String :=
  tokens.foldl
    (fun (st : ℚ × String × List String) tok =>
      match parseFloat? tok with
      | some x => (x, st.2.1, st.2.2)
      | none =>
        if PARSE_UNITS.contains (pyLower tok) then (st.1, rstripS (pyLower tok), st.2.2)
        else (st.1, st.2.1, st.2.2 ++ [tok]))
    (1, "serving", [])

/-- The segment split of `_parse_description`:
`description.replace("with", ",").replace("and", ",").split(",")`, each
part stripped, empty parts dropped. -/
def parseSegments (description : String) : List String :=
  ((pySplitComma (pyReplace (pyReplace description "with" ",") "and" ",")).map pyStrip).filter
    (fun s => s ≠ "")

/-- The `MealItem` built for one segment once `_match_food` has resolved the
food name. -/
def itemFromSegment (refName : String) (nutrients : Macros) (quantity : ℚ) (unit : String) :
    MealItem :=
  let qn := normalize_unit quantity unit
  let factor := if qn.2 = "g" then qn.1 / 100 else quantity
  { name := pyTitle refName
    quantity := quantity
    unit := unit
    calories := nutrients.calories * factor
    protein_g := nutrients.protein_g * factor
    carb_g := nutrients.carb_g * factor
    fat_g := nutrients.fat_g * factor
    estimated := qn.2 != "g" }

/-- The per-segment loop of `_parse_description`: a segment with no name
tokens is skipped (`continue`), otherwise the food is resolved (raising
propagates the unknown-food error) and an item is appended. -/
def processSegments (store : RefStore) : List String → Except String (List MealItem)
  | [] => Except.ok []
  | seg :: rest =>
    let cls := classifyTokens (pySplitWs seg)
    if cls.2.2 = [] then processSegments store rest
    else
      match _match_food store (pyJoin " " cls.2.2) with
      | Except.error e => Except.error e
      | Except.ok pr =>
        match processSegments store rest with
        | Except.error e => Except.error e
        | Except.ok items => Except.ok (itemFromSegment pr.1 pr.2 cls.1 cls.2.1 :: items)

/-- `_parse_description`: split into segments, then process each in order. -/
def _parse_description (store : RefStore) (description : String) :
    Except String (List MealItem) :=
  processSegments store (parseSegments description)

/-- Modelled from the claim's words, for comparison only: break a token
list at the standalone connector words "with" and "and". -/
def breakAtConnectors : List String → List (List String)
  | [] => [[]]
  | t :: rest =>
    let parts := breakAtConnectors rest
    if t = "with" ∨ t = "and" then [] :: parts
    else
      match parts with
      | [] => [[t]]
      | p :: ps => (t :: p) :: ps

/-- Modelled from the claim's words, for comparison only: split a
description on commas and on the literal connector *words* "with" and
"and" (as whitespace-delimited tokens), discarding empty segments. -/
def splitSpecWords (d : String) : List String :=
  (((pySplitComma d).map
    (fun part => (breakAtConnectors (pySplitWs part)).map (pyJoin " "))).flatten).filter
    (fun s => s ≠ "")

/-! ### `_find_recipe` from `src/tools/cooking_assistant.py` -/

/-- One row of `recipes_sample.csv` as `_find_recipe` reads it; only the
fields the resolution scans are modelled. -/
structure RecipeRow where
  title : String
  ingredients : String
deriving Repr, DecidableEq, Inhabited

/-- First pass of `_find_recipe`: bidirectional lowercase containment
between query and title. -/
def titlePass (q : String) (row : RecipeRow) : Bool :=
  pyContains (pyLower q) (pyLower row.title) || pyContains (pyLower row.title) (pyLower q)

/-- Second pass of `_find_recipe`: lowercase query-substring match against
the ingredient list. -/
def ingredientPass (q : String) (row : RecipeRow) : Bool :=
  pyContains (pyLower q) (pyLower row.ingredients)

/-- A Python `for`-loop that returns the first element satisfying `p`. -/
def findLoop {α : Type} (p : α → Bool) : List α → Option α
  | [] => none
  | r :: rest => if p r then some r else findLoop p rest

/-- `_find_recipe`: scan all rows with the title pass, then all rows with
the ingredient pass, else raise the recipe-not-found error. -/
def _find_recipe (data : List RecipeRow) (q : String) : Except String RecipeRow :=
  match findLoop (titlePass q) data with
  | some r => Except.ok r
  | none =>
    match findLoop (ingredientPass q) data with
    | some r => Except.ok r
    | none => Except.error ("Recipe not found for query: " ++ q)

/-! ### `src/core/embeddings.py` -/

/-- `EMBED_DIM`. -/
def EMBED_DIM : ℕ := 128

/-- `RecipeDocument` from `src/core/schemas.py`. -/
structure RecipeDocument where
  recipe_id : String
  title : String
  text : String
  tags : List String
  servings : ℤ
  calories : ℚ
  protein_g : ℚ
  carb_g : ℚ
  fat_g : ℚ
deriving Repr, DecidableEq, Inhabited

/-- `digest[idx % len(digest)]`.  The digest is the SHA-256 of the text,
modelled as an opaque deterministic byte function passed in as a parameter
(its output always has length 32 in the source, so the modulus is never 0). -/
def byteAt (digest : List ℕ) (i : ℕ) : ℕ := digest.getD (i % digest.length) 0

/-- `_hash_embed`: map each of the 128 dimensions to a digest byte (cycling)
rescaled from 0..255 to [-1, 1]. -/
def hash_embed (digest : List ℕ) (dim : ℕ := EMBED_DIM) : List ℚ :=
  (List.range dim).map (fun i => ((byteAt digest i : ℚ) / 255) * 2 - 1)

/-- `_normalize`: divide by the L2 norm, a zero norm replaced by 1.0.  The
square root of the float implementation is modelled by the parameter
`sqrtFn`, an arbitrary deterministic function of the squared norm. -/
def pyNormVec (sqrtFn : ℚ → ℚ) (v : List ℚ) : List ℚ :=
  let n := sqrtFn ((v.map (fun x => x * x)).sum)
  let n1 := if n = 0 then 1 else n
  v.map (fun x => x / n1)

/-- The embedding of one text, as used for documents and queries alike. -/
def embedText (digest : String → List ℕ) (sqrtFn : ℚ → ℚ) (t : String) : List ℚ :=
  pyNormVec sqrtFn (hash_embed (digest t) EMBED_DIM)

/-- `_get_embeddings`. -/
def get_embeddings (digest : String → List ℕ) (sqrtFn : ℚ → ℚ) (texts : List String) :
    List (List ℚ) :=
  texts.map (embedText digest sqrtFn)

/-- `_dot` (pure-Python branch): `sum(x * y for x, y in zip(a, b))`. -/
def dotQ (a b : List ℚ) : ℚ := ((a.zip b).map (fun p => p.1 * p.2)).sum

/-- The persisted index: the parallel vector and metadata stores written by
`build_index` and read by `_load_index` (the FAISS file is written only
when the optional native libraries are present and is never read by
`retrieve`). -/
structure IndexState where
  stored : Option (List (List ℚ) × List RecipeDocument)
deriving Repr, DecidableEq, Inhabited

/-- `build_index(force)`: skip when the stores already exist and no rebuild
is forced, else embed every corpus document and persist both stores. -/
def build_index (digest : String → List ℕ) (sqrtFn : ℚ → ℚ)
    (corpus : List RecipeDocument) (force : Bool) (s : IndexState) : IndexState :=
  match s.stored, force with
  | some vm, false => ⟨some vm⟩
  | _, _ => ⟨some (get_embeddings digest sqrtFn (corpus.map RecipeDocument.text), corpus)⟩

/-- `_load_index`: build lazily when a store is missing, then read both. -/
def load_index (digest : String → List ℕ) (sqrtFn : ℚ → ℚ)
    (corpus : List RecipeDocument) (s : IndexState) :
    (List (List ℚ) × List RecipeDocument) × IndexState :=
  match s.stored with
  | some vm => (vm, s)
  | none =>
    let s' := build_index digest sqrtFn corpus false s
    (s'.stored.getD ([], []), s')

/-- The comparator realised by Python's stable
`scored.sort(key=lambda item: item[1], reverse=True)`: an element stays
before a later one exactly when its score is at least as large. -/
def scoredGe (a b : RecipeDocument × ℚ) : Bool := decide (b.2 ≤ a.2)

/-- The body of `retrieve` once the index is loaded: embed the query the
same way as the documents, score every stored vector by dot product, sort
descending by score (Python's sort is stable), return the first `k`. -/
def retrieveOn (digest : String → List ℕ) (sqrtFn : ℚ → ℚ)
    (vectors : List (List ℚ)) (meta : List RecipeDocument) (query : String)
    (k : ℕ := 6) : List (RecipeDocument × ℚ) :=
  let qv := embedText digest sqrtFn query
  let scored := (vectors.zip meta).map (fun p => (p.2, dotQ p.1 qv))
  (stableSort scoredGe scored).take k

/-- `retrieve`: load (lazily building) the index, then rank. -/
def retrieve (digest : String → List ℕ) (sqrtFn : ℚ → ℚ)
    (corpus : List RecipeDocument) (s : IndexState) (query : String) (k : ℕ := 6) :
    List (RecipeDocument × ℚ) × IndexState :=
  let lr := load_index digest sqrtFn corpus s
  (retrieveOn digest sqrtFn lr.1.1 lr.1.2 query k, lr.2)

/-! ### `src/tools/meal_planner.py` -/

/-- `MacroTargets` from `src/core/schemas.py`. -/
structure MacroTargets where
  calories : ℤ
  protein : ℤ
  carbs : ℤ
  fat : ℤ
  diet_tags : List String := []
  exclusions : List String := []
  meals_per_day : ℕ := 3
deriving Repr, DecidableEq, Inhabited

/-- One row of `healthy_meal_plans.csv` as the planner reads it.  The
numeric columns are rationals (the source converts csv strings via
`float(... or 0.0)`); the diet-flag columns stay strings and go through
`_bool`; `tags` is written back into the row by `_meal_satisfies`. -/
structure CsvMeal where
  meal_name : String
  calories : ℚ
  protein : ℚ
  fat : ℚ
  carbs : ℚ
  vegan : String := ""
  vegetarian : String := ""
  keto : String := ""
  paleo : String := ""
  gluten_free : String := ""
  mediterranean : String := ""
  is_healthy : String := ""
  tags : String := ""
deriving Repr, DecidableEq, Inhabited

/-- `_bool` from `src/tools/meal_planner.py`. -/
def pybool (v : String) : Bool := pyStrip v ∈ (["1", "true", "True"] : List String)

/-- The tag labels `_meal_satisfies` collects from the flag columns, in
source order. -/
def mealTags (m : CsvMeal) : List String :=
  ([("vegan", m.vegan), ("vegetarian", m.vegetarian), ("keto", m.keto),
    ("paleo", m.paleo), ("gluten-free", m.gluten_free),
    ("mediterranean", m.mediterranean), ("healthy", m.is_healthy)].filter
      (fun p => pybool p.2)).map Prod.fst

/-- The in-place mutation `meal["tags"] = ",".join(tags)` performed by
`_meal_satisfies` on every row it inspects. -/
def setTags (m : CsvMeal) : CsvMeal := { m with tags := pyJoin "," (mealTags m) }

/-- The boolean verdict of `_meal_satisfies`: the row must carry one of the
requested diet tags (when any are requested) and its name must contain no
non-empty exclusion (lowercased substring). -/
def mealSatisfies (t : MacroTargets) (m : CsvMeal) : Bool :=
  if t.diet_tags ≠ [] ∧ ¬ (t.diet_tags.any (fun tag => (mealTags m).contains tag)) then false
  else !(t.exclusions.any (fun e => e != "" && pyContains (pyLower e) (pyLower m.meal_name)))

/-- `_filter_meals`: tag every row (the loop's side effect touches each
row), keep the satisfying ones, and fall back to the whole (tagged) corpus
when nothing satisfies (`filtered or meals`). -/
def _filter_meals (meals : List CsvMeal) (t : MacroTargets) : List CsvMeal :=
  let tagged := meals.map setTags
  let filtered := tagged.filter (mealSatisfies t)
  if filtered = [] then tagged else filtered

/-- `_build_plan_meal`: one single-item `PlanMeal` from a csv row, with the
source's ×900 calorie and ×100 macro rescaling of the csv columns. -/
def _build_plan_meal (m : CsvMeal) (meal_type : String) : PlanMeal :=
  { name := m.meal_name
    meal_type := meal_type
    items := [{ name := m.meal_name, quantity := 1, unit := "serving",
                calories := m.calories * 900, protein_g := m.protein * 100,
                carb_g := m.carbs * 100, fat_g := m.fat * 100, estimated := true }]
    notes := some m.tags }

/-- The meal-type cycle of `generate_plan`. -/
def PLAN_MEAL_TYPES (t : MacroTargets) : List String :=
  if t.meals_per_day = 4 then ["breakfast", "lunch", "dinner", "snack"]
  else ["breakfast", "lunch", "dinner"]

/-- `l[i % len(l)]`; the source never indexes an empty list here (an empty
corpus would already have failed), so the default is unreachable. -/
def listPick {α : Type} [Inhabited α] (l : List α) (i : ℕ) : α :=
  l.getD (i % l.length) default

/-- The unscaled `PlanDay` assembled by the round-robin loop for one day,
with `pointer` the meal counter at the start of the day. -/
def buildDayRaw (filtered : List CsvMeal) (types : List String) (mp pointer : ℕ)
    (d : ℤ) : PlanDay :=
  ⟨d, (List.range mp).map
    (fun idx => _build_plan_meal (listPick filtered (pointer + idx)) (listPick types idx))⟩

/-- The per-item rescaling applied when a day falls short: quantity and all
four macro fields multiplied by the scale, `estimated` forced to true. -/
def scaleItem (s : ℚ) (it : MealItem) : MealItem :=
  { name := it.name, quantity := it.quantity * s, unit := it.unit,
    calories := it.calories * s, protein_g := it.protein_g * s,
    carb_g := it.carb_g * s, fat_g := it.fat_g * s, estimated := true }

/-- The rebuilt day of scaled meals. -/
def scaleDay (day : PlanDay) (s : ℚ) : PlanDay :=
  ⟨day.date, day.meals.map (fun m =>
    { name := m.name, meal_type := m.meal_type, items := m.items.map (scaleItem s),
      notes := m.notes })⟩

/-- The under-target adjustment of `generate_plan`: when the day's total
calories fall below 80% of the target, scale by
`clamp_calories(target) / max(total, 1)`. -/
def adjustDay (t : MacroTargets) (day : PlanDay) : PlanDay :=
  let cal := dget day.totals "calories"
  if cal < (t.calories : ℚ) * (4/5) then
    scaleDay day (clamp_calories (t.calories : ℚ) / max cal 1)
  else day

/-- `generate_plan` from `src/tools/meal_planner.py`; `date.today()` is the
integer parameter `startDate`. -/
def generate_plan (meals : List CsvMeal) (startDate : ℤ) (t : MacroTargets)
    (days : ℕ := 7) : List PlanDay :=
  let filtered := _filter_meals meals t
  let types := PLAN_MEAL_TYPES t
  (List.range days).map (fun offset =>
    adjustDay t (buildDayRaw filtered types t.meals_per_day (offset * t.meals_per_day)
      (startDate + offset)))

/-! ## Theorems -/

/-! ### Dict lemmas -/

theorem dget_nil (k : String) : dget [] k = 0 := rfl

theorem dget_cons (k' k : String) (v : ℚ) (d : List (String × ℚ)) :
    dget ((k', v) :: d) k = if k' = k then v else dget d k := by
  by_cases h : k' = k
  · simp [dget, dlookup, List.find?, h]
  · have hb : (k' == k) = false := by simp [h]
    simp [dget, dlookup, List.find?, hb, h]

/-! ### Stable-sort and dict lemmas for the reference store -/

theorem insertStable_perm {α : Type} (le : α → α → Bool) (x : α) (l : List α) :
    (insertStable le x l).Perm (x :: l) := by
  induction l with
  | nil => rfl
  | cons y ys ih =>
    by_cases h : le y x
    · simp only [insertStable, if_pos h]
      exact (ih.cons y).trans (List.Perm.swap x y ys)
    · simp [insertStable, h]

theorem stableSort_perm_aux {α : Type} (le : α → α → Bool) (l acc : List α) :
    (l.foldl (fun acc x => insertStable le x acc) acc).Perm (acc ++ l) := by
  induction l generalizing acc with
  | nil => simp
  | cons x xs ih =>
    refine (ih _).trans ?_
    refine ((insertStable_perm le x acc).append_right xs).trans ?_
    exact List.perm_middle.symm

theorem stableSort_perm {α : Type} (le : α → α → Bool) (l : List α) :
    (stableSort le l).Perm l := by
  simpa using stableSort_perm_aux le l []

theorem stableSort_filter_singleton {α : Type} [DecidableEq α] (le : α → α → Bool)
    (p : α → Bool) (l : List α) (x : α) (h : l.filter p = [x]) :
    (stableSort le l).filter p = [x] := by
  have hp := (stableSort_perm le l).filter p
  rw [h] at hp
  exact List.perm_singleton.mp hp

theorem alookup_dictSet_self {β : Type} (d : List (String × β)) (k : String) (v : β) :
    alookup (dictSet d k v) k = some v := by
  induction d with
  | nil => simp [dictSet, alookup, List.find?]
  | cons e rest ih =>
    obtain ⟨k1, v1⟩ := e
    by_cases h : k1 = k
    · simp [dictSet, h, alookup, List.find?]
    · have hb : (k1 == k) = false := by simp [h]
      simp only [dictSet, if_neg h]
      simpa [alookup, List.find?, hb] using ih

theorem alookup_dictSet_ne {β : Type} (d : List (String × β)) (k1 k : String) (v : β)
    (hne : k1 ≠ k) : alookup (dictSet d k1 v) k = alookup d k := by
  induction d with
  | nil =>
    have hb : (k1 == k) = false := by simp [hne]
    simp [dictSet, alookup, List.find?, hb]
  | cons e rest ih =>
    obtain ⟨k2, v2⟩ := e
    by_cases h : k2 = k1
    · subst h
      have hb : (k2 == k) = false := by simp [hne]
      simp [dictSet, alookup, List.find?, hb]
    · simp only [dictSet, if_neg h]
      by_cases h2 : k2 = k
      · have hb : (k2 == k) = true := by simp [h2]
        simp [alookup, List.find?, hb]
      · have hb : (k2 == k) = false := by simp [h2]
        simpa [alookup, List.find?, hb] using ih

theorem alookup_foldl_dictSet (l acc : List (String × Macros)) (k : String) :
    alookup (l.foldl (fun acc p => dictSet acc (pyLower p.1) p.2) acc) k =
      (match (l.filter (fun p => pyLower p.1 == k)).getLast? with
       | some q => some q.2
       | none => alookup acc k) := by
  induction l generalizing acc with
  | nil => simp
  | cons p rest ih =>
    by_cases h : pyLower p.1 = k
    · rw [List.foldl_cons, ih]
      have hb : (pyLower p.1 == k) = true := by simp [h]
      cases hfr : List.filter (fun p => pyLower p.1 == k) rest with
      | nil => simp [List.filter_cons, hb, hfr, h, alookup_dictSet_self]
      | cons q qs =>
        cases hql : (q :: qs).getLast? with
        | none => simp at hql
        | some z => simp [List.filter_cons, hb, hfr, List.getLast?_cons_cons, hql]
    · rw [List.foldl_cons, ih]
      have hb : (pyLower p.1 == k) = false := by simp [h]
      simp [List.filter_cons, hb, alookup_dictSet_ne _ _ _ _ h]

theorem filter_dictSet_unique (raw : List (String × Macros)) (dn : String) (v : Macros)
    (hnd : (raw.map Prod.fst).Nodup)
    (huniq : ∀ e ∈ raw, e.1 ≠ dn → pyLower e.1 ≠ pyLower dn) :
    (dictSet raw dn v).filter (fun p => pyLower p.1 == pyLower dn) = [(dn, v)] := by
  induction raw with
  | nil => simp [dictSet, List.filter]
  | cons e rest ih =>
    obtain ⟨k1, v1⟩ := e
    rw [List.map_cons, List.nodup_cons] at hnd
    by_cases h : k1 = dn
    · subst h
      have hrest : List.filter (fun p => pyLower p.1 == pyLower k1) rest = [] := by
        rw [List.filter_eq_nil_iff]
        intro q hq
        have hq1 : q.1 ≠ k1 := by
          intro hcontra
          have hmem : q.1 ∈ rest.map Prod.fst := List.mem_map_of_mem Prod.fst hq
          rw [hcontra] at hmem
          exact hnd.1 hmem
        simpa using huniq q (List.mem_cons_of_mem _ hq) hq1
      simp [dictSet, List.filter_cons, hrest]
    · have hne : pyLower k1 ≠ pyLower dn := huniq (k1, v1) (List.mem_cons_self (k1, v1) rest) h
      have hb : (pyLower k1 == pyLower dn) = false := by simp [hne]
      simp only [dictSet, if_neg h, List.filter_cons, hb, Bool.false_eq_true, if_false]
      exact ih hnd.2 (fun e he h2 => huniq e (List.mem_cons_of_mem _ he) h2)

/-! ### `macro_totals` structure lemmas -/

theorem macroKeys_foldl_start (it : ItemDict) :
    MACRO_KEYS.foldl (fun d k => dinc d k (it.get k)) [] =
      [("calories", it.get "calories"), ("protein_g", it.get "protein_g"),
       ("carb_g", it.get "carb_g"), ("fat_g", it.get "fat_g")] := by
  simp [MACRO_KEYS, dinc]

theorem macroKeys_foldl_step (a b c e : ℚ) (it : ItemDict) :
    MACRO_KEYS.foldl (fun d k => dinc d k (it.get k))
      [("calories", a), ("protein_g", b), ("carb_g", c), ("fat_g", e)] =
      [("calories", a + it.get "calories"), ("protein_g", b + it.get "protein_g"),
       ("carb_g", c + it.get "carb_g"), ("fat_g", e + it.get "fat_g")] := by
  simp [MACRO_KEYS, dinc]

theorem macroTotals_foldl_closed (items : List ItemDict) (a b c e : ℚ) :
    items.foldl (fun d it => MACRO_KEYS.foldl (fun d k => dinc d k (it.get k)) d)
      [("calories", a), ("protein_g", b), ("carb_g", c), ("fat_g", e)] =
      [("calories", a + (items.map (fun it => it.get "calories")).sum),
       ("protein_g", b + (items.map (fun it => it.get "protein_g")).sum),
       ("carb_g", c + (items.map (fun it => it.get "carb_g")).sum),
       ("fat_g", e + (items.map (fun it => it.get "fat_g")).sum)] := by
  induction items generalizing a b c e with
  | nil => simp
  | cons it rest ih =>
    simp only [List.foldl_cons, macroKeys_foldl_step, ih, List.map_cons, List.sum_cons]
    simp [add_assoc]

theorem planDay_foldl_closed (meals : List PlanMeal) (a b c e : ℚ) :
    meals.foldl
      (fun (t : ℚ × ℚ × ℚ × ℚ) m =>
        (t.1 + dget m.totals "calories", t.2.1 + dget m.totals "protein_g",
         t.2.2.1 + dget m.totals "carb_g", t.2.2.2 + dget m.totals "fat_g"))
      (a, b, c, e) =
      (a + (meals.map (fun m => dget m.totals "calories")).sum,
       b + (meals.map (fun m => dget m.totals "protein_g")).sum,
       c + (meals.map (fun m => dget m.totals "carb_g")).sum,
       e + (meals.map (fun m => dget m.totals "fat_g")).sum) := by
  induction meals generalizing a b c e with
  | nil => simp
  | cons m rest ih =>
    simp only [List.foldl_cons, ih, List.map_cons, List.sum_cons]
    simp [add_assoc]

theorem dget_mealTotals (m : PlanMeal) :
    dget m.totals "calories" = round2 ((m.items.map MealItem.calories).sum) ∧
    dget m.totals "protein_g" = round2 ((m.items.map MealItem.protein_g).sum) ∧
    dget m.totals "carb_g" = round2 ((m.items.map MealItem.carb_g).sum) ∧
    dget m.totals "fat_g" = round2 ((m.items.map MealItem.fat_g).sum) := by
  refine ⟨?_, ?_, ?_, ?_⟩ <;> simp [PlanMeal.totals, mealTotals, dget_cons]

/-! ### Claim C5 -/

/-- C5 (corrected): `normalize_unit` converts exactly the lowercased unit
strings that are keys of the code's table `GRAM_EQUIVALENTS`
{g, gram, grams, kg, mg, lb, oz, ml, l, cup, tbsp, tsp, piece, pcs, unit},
multiplying by the table factor with no rounding, and passes every other
unit string through unchanged; in particular `normalize(2, "cup") = (480, "g")`
and `normalize(1, "kg") = (1000, "g")`.  Unlike the claim's table, the plural
"pieces" is not a key (it passes through unchanged) and the extra
abbreviation "pcs" is one. -/
theorem C5_normalize_unit_table (q : ℚ) (u : String) :
    (∀ f, gramFactor (pyLower u) = some f → normalize_unit q u = (q * f, "g")) ∧
    (gramFactor (pyLower u) = none → normalize_unit q u = (q, u)) ∧
    normalize_unit 2 "cup" = (480, "g") ∧
    normalize_unit 1 "kg" = (1000, "g") ∧
    gramFactor "kg" = some 1000 ∧ gramFactor "mg" = some (1/1000) ∧
    gramFactor "lb" = some (453592/1000) ∧ gramFactor "oz" = some (283495/10000) ∧
    gramFactor "ml" = some 1 ∧ gramFactor "l" = some 1000 ∧
    gramFactor "cup" = some 240 ∧ gramFactor "tbsp" = some 15 ∧
    gramFactor "tsp" = some 5 ∧ gramFactor "piece" = some 1 ∧
    gramFactor "unit" = some 1 ∧ gramFactor "pieces" = none := by
  refine ⟨?_, ?_, ?_, ?_, ?_, ?_, ?_, ?_, ?_, ?_, ?_, ?_, ?_, ?_, ?_, ?_⟩
  · intro f hf
    by_cases hm : pyLower u ∈ (["cup", "tbsp", "tsp", "ml", "l"] : List String) <;>
      simp [normalize_unit, hm, hf]
  · intro hf
    have hm : pyLower u ∉ (["cup", "tbsp", "tsp", "ml", "l"] : List String) := by
      intro hmem
      simp only [List.mem_cons, List.not_mem_nil, or_false] at hmem
      rcases hmem with h | h | h | h | h <;>
        simp [h, gramFactor, GRAM_EQUIVALENTS, List.find?] at hf
    simp [normalize_unit, hm, hf]
  · have h : pyLower "cup" = "cup" := by decide
    simp [normalize_unit, h, gramFactor, GRAM_EQUIVALENTS, List.find?]
    norm_num
  · have h : pyLower "kg" = "kg" := by decide
    simp [normalize_unit, h, gramFactor, GRAM_EQUIVALENTS, List.find?]
  all_goals simp [gramFactor, GRAM_EQUIVALENTS, List.find?]

/-- Witness for C5: `normalize_unit 3 "kg"` converts via the table factor
1000, discharging the table-hit hypothesis at a concrete input. -/
theorem C5_normalize_unit_table_witness : normalize_unit 3 "kg" = (3 * 1000, "g") :=
  (C5_normalize_unit_table 3 "kg").1 1000 (by simp [pyLower, gramFactor, GRAM_EQUIVALENTS, List.find?])

/-- Counterexample for C5 as stated: the claim's table contains "piece(s)"
and nothing else beyond the listed units, but the code passes "pieces"
through unchanged while converting the unlisted "pcs" to grams. -/
theorem C5_counterexample :
    normalize_unit 1 "pieces" = (1, "pieces") ∧ ((1 : ℚ), "pieces") ≠ ((1 : ℚ), "g") ∧
    normalize_unit 1 "pcs" = (1, "g") ∧ ((1 : ℚ), "g") ≠ ((1 : ℚ), "pcs") := by
  have h1 : pyLower "pieces" = "pieces" := by decide
  have h2 : pyLower "pcs" = "pcs" := by decide
  refine ⟨?_, by simp, ?_, by simp⟩
  · simp [normalize_unit, h1, gramFactor, GRAM_EQUIVALENTS, List.find?]
  · simp [normalize_unit, h2, gramFactor, GRAM_EQUIVALENTS, List.find?]

/-! ### Claim C9 -/

/-- C9 (code bug): `macro_delta` builds the totals key by dropping the last
character of the macro key ("protein" becomes "protei_g", "fat" becomes
"fa_g"), so for the protein and fat entries it reads 0 from the totals and
returns the negated target instead of `totals - targets`; the clean
reimplementation the spec prescribes returns 40 here, the code returns -10. -/
theorem C9_macro_delta_truncated_keys :
    totalKeyFor "protein" = "protei_g" ∧ totalKeyFor "fat" = "fa_g" ∧
    dget (macro_delta [("protein", 10)] [("protein_g", 50)]) "protein" = -10 ∧
    dget (macro_delta_spec [("protein", 10)] [("protein_g", 50)]) "protein" = 40 ∧
    macro_delta [("protein", 10)] [("protein_g", 50)] ≠
      macro_delta_spec [("protein", 10)] [("protein_g", 50)] := by
  have h : totalKeyFor "protein" = "protei_g" := by decide
  have h2 : totalKeyFor "calories" = "calories" := by decide
  have h3 : totalKeyFor "carbs" = "carb_g" := by decide
  have h4 : totalKeyFor "fat" = "fa_g" := by decide
  refine ⟨h, h4, ?_, ?_, ?_⟩
  · simp [macro_delta, DELTA_KEYS, h, h2, h3, h4, dget, dlookup, List.find?]
    norm_num [round2, roundHalfEven]
  · simp [macro_delta_spec, dget, dlookup, List.find?]
    norm_num [round2, roundHalfEven]
  · simp [macro_delta, macro_delta_spec, DELTA_KEYS, h, h2, h3, h4, dget, dlookup, List.find?]
    norm_num [round2, roundHalfEven]

/-! ### Claim C3 -/

/-- C3 (corrected): for every non-empty collection of items, `macro_totals`
returns the four fields calories, protein_g, carb_g, fat_g, each the sum
over the collection (missing fields contributing 0) rounded half-to-even to
2 decimals exactly once, on the final sum and never on per-item values; on
the empty collection it returns an empty record instead.  A day total sums
the already-rounded per-meal totals and rounds the sums again. -/
theorem C3_totals_rounding :
    (∀ items : List ItemDict, items ≠ [] →
      macro_totals items =
        [("calories", round2 ((items.map (fun it => it.get "calories")).sum)),
         ("protein_g", round2 ((items.map (fun it => it.get "protein_g")).sum)),
         ("carb_g", round2 ((items.map (fun it => it.get "carb_g")).sum)),
         ("fat_g", round2 ((items.map (fun it => it.get "fat_g")).sum))]) ∧
    macro_totals [] = [] ∧
    (∀ d : PlanDay,
      d.totals =
        [("calories", round2 ((d.meals.map (fun m => round2 ((m.items.map MealItem.calories).sum))).sum)),
         ("protein_g", round2 ((d.meals.map (fun m => round2 ((m.items.map MealItem.protein_g).sum))).sum)),
         ("carb_g", round2 ((d.meals.map (fun m => round2 ((m.items.map MealItem.carb_g).sum))).sum)),
         ("fat_g", round2 ((d.meals.map (fun m => round2 ((m.items.map MealItem.fat_g).sum))).sum))]) := by
  refine ⟨?_, rfl, ?_⟩
  · intro items hne
    match items with
    | [] => exact absurd rfl hne
    | it :: rest =>
      simp only [macro_totals, List.foldl_cons, macroKeys_foldl_start, macroTotals_foldl_closed,
        List.map_cons, List.sum_cons, List.map_nil]
  · intro d
    have h1 := fun m => (dget_mealTotals m).1
    have h2 := fun m => (dget_mealTotals m).2.1
    have h3 := fun m => (dget_mealTotals m).2.2.1
    have h4 := fun m => (dget_mealTotals m).2.2.2
    simp only [PlanDay.totals, planDay_foldl_closed, zero_add]
    simp only [h1, h2, h3, h4]

/-- Witness for C3: the non-emptiness hypothesis discharged at a one-item
collection. -/
theorem C3_totals_rounding_witness :
    macro_totals [{ calories := some 100, protein_g := some 10, carb_g := some 20, fat_g := some 5 }] =
      [("calories", round2 ((([{ calories := some 100, protein_g := some 10, carb_g := some 20, fat_g := some 5 }] : List ItemDict).map (fun it => it.get "calories")).sum)),
       ("protein_g", round2 ((([{ calories := some 100, protein_g := some 10, carb_g := some 20, fat_g := some 5 }] : List ItemDict).map (fun it => it.get "protein_g")).sum)),
       ("carb_g", round2 ((([{ calories := some 100, protein_g := some 10, carb_g := some 20, fat_g := some 5 }] : List ItemDict).map (fun it => it.get "carb_g")).sum)),
       ("fat_g", round2 ((([{ calories := some 100, protein_g := some 10, carb_g := some 20, fat_g := some 5 }] : List ItemDict).map (fun it => it.get "fat_g")).sum))] :=
  C3_totals_rounding.1 _ (by simp)

/-- Counterexample for C3 as stated: on the empty collection the code
returns an empty record, with no calories field at all, not a record of
zero-valued fields. -/
theorem C3_counterexample :
    macro_totals ([] : List ItemDict) = [] ∧
    dlookup (macro_totals ([] : List ItemDict)) "calories" = none := ⟨rfl, rfl⟩

/-! ### Claim C2 -/

/-- C2 (corrected): `_parse_description` splits the text on every
*occurrence of the substrings* "with" and "and" — even inside words — and
on commas (replacing "with", then "and", by commas and splitting on
commas), stripping each segment and discarding empties; and any segment
that yields no food-name tokens is dropped silently, leaving the result —
including whether an unknown-food error is raised — exactly as if only the
name-bearing segments were processed. -/
theorem C2_substring_split_silent_drop (store : RefStore) (d : String) :
    _parse_description store d =
      processSegments store
        (((pySplitComma (pyReplace (pyReplace d "with" ",") "and" ",")).map pyStrip).filter
          (fun s => s ≠ "")) ∧
    (∀ segs : List String,
      processSegments store segs =
        processSegments store
          (segs.filter (fun s => !(classifyTokens (pySplitWs s)).2.2.isEmpty))) := by
  refine ⟨rfl, ?_⟩
  intro segs
  induction segs with
  | nil => rfl
  | cons s rest ih =>
    by_cases h : (classifyTokens (pySplitWs s)).2.2 = []
    · simp [processSegments, h, ih, List.filter_cons, List.isEmpty_iff]
    · have hb : ((classifyTokens (pySplitWs s)).2.2.isEmpty) = false := by
        simpa [List.isEmpty_iff] using h
      simp only [processSegments, h, if_false, List.filter_cons, hb, Bool.not_false, if_true]
      cases hm : _match_food store (pyJoin " " (classifyTokens (pySplitWs s)).2.2) with
      | error e => simp [hm]
      | ok pr => simp [hm, ih]

/-- Counterexample for C2 as stated: the code splits on substrings, not on
connector words, so "sandwich" is torn into the segments "s" and "wich",
while splitting on the literal connector *words* would keep one segment
"sandwich". -/
theorem C2_counterexample :
    parseSegments "sandwich" = ["s", "wich"] ∧
    splitSpecWords "sandwich" = ["sandwich"] ∧
    (["s", "wich"] : List String) ≠ ["sandwich"] :=
  ⟨by decide, by decide, by decide⟩

/-! ### Claim C8 -/

theorem findLoop_eq_none {α : Type} (p : α → Bool) (l : List α) :
    findLoop p l = none ↔ ∀ x ∈ l, p x = false := by
  induction l with
  | nil => simp [findLoop]
  | cons y ys ih =>
    by_cases h : p y
    · simp [findLoop, h]
    · simp [findLoop, h, ih]

theorem findLoop_eq_some {α : Type} (p : α → Bool) (l : List α) (r : α) :
    findLoop p l = some r ↔
      ∃ pre post, l = pre ++ r :: post ∧ p r = true ∧ ∀ x ∈ pre, p x = false := by
  induction l with
  | nil => simp [findLoop]
  | cons y ys ih =>
    by_cases h : p y
    · simp only [findLoop, if_pos h, Option.some.injEq]
      constructor
      · rintro rfl
        exact ⟨[], ys, rfl, h, by simp⟩
      · rintro ⟨pre, post, heq, hr, hpre⟩
        cases pre with
        | nil =>
          simp only [List.nil_append] at heq
          cases heq
          rfl
        | cons a as =>
          simp only [List.cons_append] at heq
          injection heq with h1 h2
          rw [h1] at h
          simp [hpre a (List.mem_cons_self a as)] at h
    · rw [show findLoop p (y :: ys) = findLoop p ys by simp [findLoop, h], ih]
      constructor
      · rintro ⟨pre, post, heq, hr, hpre⟩
        refine ⟨y :: pre, post, by rw [heq, List.cons_append], hr, ?_⟩
        intro x hx
        rcases List.mem_cons.mp hx with rfl | hx2
        · simpa using h
        · exact hpre x hx2
      · rintro ⟨pre, post, heq, hr, hpre⟩
        cases pre with
        | nil =>
          simp only [List.nil_append] at heq
          injection heq with h1 h2
          rw [h1] at h
          exact absurd hr (by simpa using h)
        | cons a as =>
          simp only [List.cons_append] at heq
          injection heq with h1 h2
          exact ⟨as, post, h2, hr, fun x hx => hpre x (List.mem_cons_of_mem a hx)⟩

/-- C8 (confirmed): `_find_recipe` returns the first row (in corpus order)
passing the bidirectional title-containment pass; only if no row passes it,
the first row passing the ingredient-substring pass; and it raises the
recipe-not-found error exactly when no row passes either pass. -/
theorem C8_find_recipe_passes (data : List RecipeRow) (q : String) :
    (∀ r, _find_recipe data q = Except.ok r ↔
      ((∃ pre post, data = pre ++ r :: post ∧ titlePass q r = true ∧
          ∀ x ∈ pre, titlePass q x = false) ∨
       ((∀ x ∈ data, titlePass q x = false) ∧
        ∃ pre post, data = pre ++ r :: post ∧ ingredientPass q r = true ∧
          ∀ x ∈ pre, ingredientPass q x = false))) ∧
    (_find_recipe data q = Except.error ("Recipe not found for query: " ++ q) ↔
      ∀ x ∈ data, titlePass q x = false ∧ ingredientPass q x = false) := by
  constructor
  · intro r
    unfold _find_recipe
    cases h1 : findLoop (titlePass q) data with
    | some r1 =>
      simp only [Except.ok.injEq]
      constructor
      · rintro rfl
        exact Or.inl ((findLoop_eq_some _ _ _).mp h1)
      · rintro (hdec | ⟨hall, hdec⟩)
        · have := (findLoop_eq_some _ _ _).mpr hdec
          rw [h1] at this
          exact Option.some.inj this
        · have := (findLoop_eq_none (titlePass q) data).mpr hall
          rw [h1] at this
          exact absurd this (by simp)
    | none =>
      have hall1 : ∀ x ∈ data, titlePass q x = false := (findLoop_eq_none _ _).mp h1
      cases h2 : findLoop (ingredientPass q) data with
      | some r2 =>
        simp only [Except.ok.injEq]
        constructor
        · rintro rfl
          exact Or.inr ⟨hall1, (findLoop_eq_some _ _ _).mp h2⟩
        · rintro (hdec | ⟨hall, hdec⟩)
          · have := (findLoop_eq_some _ _ _).mpr hdec
            rw [h1] at this
            exact absurd this (by simp)
          · have := (findLoop_eq_some _ _ _).mpr hdec
            rw [h2] at this
            exact Option.some.inj this
      | none =>
        have hall2 : ∀ x ∈ data, ingredientPass q x = false := (findLoop_eq_none _ _).mp h2
        simp only [reduceCtorEq, false_iff]
        rintro (⟨pre, post, heq, hr, _⟩ | ⟨_, pre, post, heq, hr, _⟩)
        · exact absurd (hall1 r (by rw [heq]; exact List.mem_append_right pre (List.mem_cons_self r post))) (by simp [hr])
        · exact absurd (hall2 r (by rw [heq]; exact List.mem_append_right pre (List.mem_cons_self r post))) (by simp [hr])
  · unfold _find_recipe
    cases h1 : findLoop (titlePass q) data with
    | some r1 =>
      simp only [reduceCtorEq, false_iff]
      intro hall
      obtain ⟨pre, post, heq, hr, _⟩ := (findLoop_eq_some _ _ _).mp h1
      exact absurd (hall r1 (by rw [heq]; exact List.mem_append_right pre (List.mem_cons_self r1 post))).1 (by simp [hr])
    | none =>
      have hall1 : ∀ x ∈ data, titlePass q x = false := (findLoop_eq_none _ _).mp h1
      cases h2 : findLoop (ingredientPass q) data with
      | some r2 =>
        simp only [reduceCtorEq, false_iff]
        intro hall
        obtain ⟨pre, post, heq, hr, _⟩ := (findLoop_eq_some _ _ _).mp h2
        exact absurd (hall r2 (by rw [heq]; exact List.mem_append_right pre (List.mem_cons_self r2 post))).2 (by simp [hr])
      | none =>
        have hall2 : ∀ x ∈ data, ingredientPass q x = false := (findLoop_eq_none _ _).mp h2
        simp only [Except.error.injEq, true_iff]
        exact fun x hx => ⟨hall1 x hx, hall2 x hx⟩

/-! ### Sortedness and stability of the score ranking -/

theorem insertStable_pairwise {α : Type} (le : α → α → Bool)
    (htot : ∀ a b, le a b = true ∨ le b a = true)
    (htrans : ∀ a b c, le a b = true → le b c = true → le a c = true)
    (x : α) (l : List α) (hl : l.Pairwise (fun a b => le a b = true)) :
    (insertStable le x l).Pairwise (fun a b => le a b = true) := by
  induction l with
  | nil => simp [insertStable]
  | cons y ys ih =>
    rcases List.pairwise_cons.mp hl with ⟨hy, hys⟩
    by_cases h : le y x = true
    · simp only [insertStable, if_pos h]
      refine List.pairwise_cons.mpr ⟨?_, ih hys⟩
      intro z hz
      have hz2 : z ∈ x :: ys := (insertStable_perm le x ys).mem_iff.mp hz
      rcases List.mem_cons.mp hz2 with rfl | hz3
      · exact h
      · exact hy z hz3
    · simp only [insertStable, if_neg h]
      have hxy : le x y = true := (htot x y).resolve_right (by simpa using h)
      refine List.pairwise_cons.mpr ⟨?_, hl⟩
      intro z hz
      rcases List.mem_cons.mp hz with rfl | hz2
      · exact hxy
      · exact htrans x y z hxy (hy z hz2)

theorem stableSort_pairwise {α : Type} (le : α → α → Bool)
    (htot : ∀ a b, le a b = true ∨ le b a = true)
    (htrans : ∀ a b c, le a b = true → le b c = true → le a c = true)
    (l : List α) : (stableSort le l).Pairwise (fun a b => le a b = true) := by
  suffices h : ∀ acc, acc.Pairwise (fun a b => le a b = true) →
      (l.foldl (fun acc x => insertStable le x acc) acc).Pairwise (fun a b => le a b = true) from
    h [] (by simp)
  induction l with
  | nil => intro acc hacc; simpa using hacc
  | cons x xs ih =>
    intro acc hacc
    exact ih _ (insertStable_pairwise le htot htrans x acc hacc)

theorem insertStable_filter_of_not {α : Type} (le : α → α → Bool) (p : α → Bool)
    (x : α) (l : List α) (hx : p x = false) :
    (insertStable le x l).filter p = l.filter p := by
  induction l with
  | nil => simp [insertStable, hx]
  | cons y ys ih =>
    by_cases h : le y x = true <;>
      simp [insertStable, h, List.filter_cons, ih, hx]

theorem insertStable_filter_score (s : ℚ) (x : RecipeDocument × ℚ)
    (l : List (RecipeDocument × ℚ)) (hx : x.2 = s)
    (hl : l.Pairwise (fun a b => scoredGe a b = true)) :
    (insertStable scoredGe x l).filter (fun a => a.2 == s) =
      l.filter (fun a => a.2 == s) ++ [x] := by
  induction l with
  | nil => simp [insertStable, hx]
  | cons y ys ih =>
    rcases List.pairwise_cons.mp hl with ⟨hy, hys⟩
    by_cases h : scoredGe y x = true
    · by_cases hpy : y.2 = s <;>
        simp [insertStable, h, List.filter_cons, hpy, ih hys]
    · have hlt : y.2 < s := by
        have := lt_of_not_le (by simpa [scoredGe, hx] using h)
        simpa [hx] using this
      have hy2 : (y.2 == s) = false := by simp [ne_of_lt hlt]
      have hall : List.filter (fun a => a.2 == s) ys = [] := by
        rw [List.filter_eq_nil_iff]
        intro z hz
        have hzy : z.2 ≤ y.2 := by simpa [scoredGe] using hy z hz
        have : z.2 < s := lt_of_le_of_lt hzy hlt
        simp [ne_of_lt this]
      simp [insertStable, h, List.filter_cons, hx, hy2, hall]

theorem scoredGe_total : ∀ a b : RecipeDocument × ℚ,
    scoredGe a b = true ∨ scoredGe b a = true := by
  intro a b
  simp only [scoredGe, decide_eq_true_eq]
  exact le_total b.2 a.2

theorem scoredGe_trans : ∀ a b c : RecipeDocument × ℚ,
    scoredGe a b = true → scoredGe b c = true → scoredGe a c = true := by
  intro a b c hab hbc
  simp only [scoredGe, decide_eq_true_eq] at *
  exact le_trans hbc hab

theorem stableSort_filter_score (s : ℚ) (l : List (RecipeDocument × ℚ)) :
    (stableSort scoredGe l).filter (fun a => a.2 == s) =
      l.filter (fun a => a.2 == s) := by
  suffices h : ∀ acc, acc.Pairwise (fun a b => scoredGe a b = true) →
      (l.foldl (fun acc x => insertStable scoredGe x acc) acc).filter (fun a => a.2 == s) =
        acc.filter (fun a => a.2 == s) ++ l.filter (fun a => a.2 == s) by
    simpa using h [] (by simp)
  induction l with
  | nil => intro acc hacc; simp
  | cons x xs ih =>
    intro acc hacc
    rw [List.foldl_cons,
      ih _ (insertStable_pairwise scoredGe scoredGe_total scoredGe_trans x acc hacc),
      List.filter_cons]
    by_cases hx : x.2 = s
    · rw [insertStable_filter_score s x acc hx hacc]
      simp [hx, List.append_assoc]
    · rw [insertStable_filter_of_not _ _ _ _ (by simp [hx])]
      simp [hx]

/-! ### Claim C4 -/

/-- C4 (confirmed): `retrieve` embeds the query with the same deterministic
hash embedding used when the document vectors were built, scores every
stored vector by dot product against the query vector, and returns the
first `k` entries of the scored list sorted descending by score, ties
preserving original corpus order (the sort result is a permutation of the
scored list, pairwise descending, and within each score class equal to the
unsorted list); `k` defaults to 6. -/
theorem C4_retrieve_ranking (digest : String → List ℕ) (sqrtFn : ℚ → ℚ)
    (corpus : List RecipeDocument) (query : String) (k : ℕ) :
    (retrieveOn digest sqrtFn (get_embeddings digest sqrtFn (corpus.map RecipeDocument.text))
        corpus query k =
      (stableSort scoredGe
        (((get_embeddings digest sqrtFn (corpus.map RecipeDocument.text)).zip corpus).map
          (fun p => (p.2, dotQ p.1 (embedText digest sqrtFn query))))).take k) ∧
    ((stableSort scoredGe
        (((get_embeddings digest sqrtFn (corpus.map RecipeDocument.text)).zip corpus).map
          (fun p => (p.2, dotQ p.1 (embedText digest sqrtFn query))))).Perm
      (((get_embeddings digest sqrtFn (corpus.map RecipeDocument.text)).zip corpus).map
          (fun p => (p.2, dotQ p.1 (embedText digest sqrtFn query))))) ∧
    ((stableSort scoredGe
        (((get_embeddings digest sqrtFn (corpus.map RecipeDocument.text)).zip corpus).map
          (fun p => (p.2, dotQ p.1 (embedText digest sqrtFn query))))).Pairwise
      (fun a b => b.2 ≤ a.2)) ∧
    (∀ s : ℚ, (stableSort scoredGe
        (((get_embeddings digest sqrtFn (corpus.map RecipeDocument.text)).zip corpus).map
          (fun p => (p.2, dotQ p.1 (embedText digest sqrtFn query))))).filter (fun a => a.2 == s) =
      (((get_embeddings digest sqrtFn (corpus.map RecipeDocument.text)).zip corpus).map
          (fun p => (p.2, dotQ p.1 (embedText digest sqrtFn query)))).filter (fun a => a.2 == s)) ∧
    (retrieveOn digest sqrtFn (get_embeddings digest sqrtFn (corpus.map RecipeDocument.text))
        corpus query =
      retrieveOn digest sqrtFn (get_embeddings digest sqrtFn (corpus.map RecipeDocument.text))
        corpus query 6) ∧
    ((retrieve digest sqrtFn corpus
        ⟨some (get_embeddings digest sqrtFn (corpus.map RecipeDocument.text), corpus)⟩
        query k).1 =
      retrieveOn digest sqrtFn (get_embeddings digest sqrtFn (corpus.map RecipeDocument.text))
        corpus query k) := by
  refine ⟨rfl, stableSort_perm _ _, ?_, fun s => stableSort_filter_score s _, rfl, rfl⟩
  have := stableSort_pairwise scoredGe scoredGe_total scoredGe_trans
    (((get_embeddings digest sqrtFn (corpus.map RecipeDocument.text)).zip corpus).map
      (fun p => (p.2, dotQ p.1 (embedText digest sqrtFn query))))
  exact this.imp (fun h => by simpa [scoredGe] using h)

/-! ### Claim C10 -/

/-- C10 (confirmed): retrieval is deterministic — calling `retrieve` a
second time with the state left by a first call (no rebuild in between)
returns the identical ranked list and leaves the state unchanged, for every
starting state, built or not. -/
theorem C10_retrieve_deterministic (digest : String → List ℕ) (sqrtFn : ℚ → ℚ)
    (corpus : List RecipeDocument) (s : IndexState) (query : String) (k : ℕ) :
    (retrieve digest sqrtFn corpus ((retrieve digest sqrtFn corpus s query k).2) query k).1 =
      (retrieve digest sqrtFn corpus s query k).1 ∧
    (retrieve digest sqrtFn corpus ((retrieve digest sqrtFn corpus s query k).2) query k).2 =
      (retrieve digest sqrtFn corpus s query k).2 := by
  cases s with
  | mk stored =>
    cases stored with
    | none => exact ⟨rfl, rfl⟩
    | some vm => exact ⟨rfl, rfl⟩

/-! ### Claim C1 -/

/-- C1 (corrected): for every valid `add_reference_food` call (non-blank
stripped name, positive reference grams) against a store in which no other
entry's name differs from the added name but lowercases to the same key, a
subsequent `_match_food` of the same lowercased name succeeds and returns
exactly each macro input multiplied by `100/referenceGrams`; and the
resulting store is invariant under scaling all five numeric inputs by a
common positive factor.  The case-uniqueness proviso is forced by the
counterexample below: the raw dataset is keyed by the case-sensitive
display name while the lookup cache is keyed by lowercase name with
last-entry-wins, so a same-cased overwrite can be shadowed by a
differently-cased entry. -/
theorem C1_add_then_lookup (store : RefStore) (name : String)
    (c p cb f rg t : ℚ) (token : String)
    (hname : pyStrip name ≠ "") (hrg : 0 < rg)
    (hnd : (store.raw.map Prod.fst).Nodup)
    (huniq : ∀ e ∈ store.raw, e.1 ≠ pyStrip name → pyLower e.1 ≠ pyLower (pyStrip name))
    (htok : pyStrip (pyLower token) = pyLower (pyStrip name))
    (ht : 0 < t) :
    (∃ store' : RefStore,
      add_reference_food store name c p cb f rg = Except.ok store' ∧
      ∃ dn, _match_food store' token =
        Except.ok (dn, ⟨c * (100 / rg), p * (100 / rg), cb * (100 / rg), f * (100 / rg)⟩)) ∧
    add_reference_food store name (t * c) (t * p) (t * cb) (t * f) (t * rg) =
      add_reference_food store name c p cb f rg := by
  have hrg' : ¬ rg ≤ 0 := not_le.mpr hrg
  constructor
  · refine ⟨⟨stableSort leLowerName (dictSet store.raw (pyStrip name)
      ⟨c * (100 / rg), p * (100 / rg), cb * (100 / rg), f * (100 / rg)⟩)⟩, ?_, ?_⟩
    · simp [add_reference_food, hname, hrg']
    · have hfilter := filter_dictSet_unique store.raw (pyStrip name)
        ⟨c * (100 / rg), p * (100 / rg), cb * (100 / rg), f * (100 / rg)⟩ hnd huniq
      have hsorted := stableSort_filter_singleton leLowerName _ _ _ hfilter
      have hlook : alookup (pyDictLower (stableSort leLowerName (dictSet store.raw (pyStrip name)
          ⟨c * (100 / rg), p * (100 / rg), cb * (100 / rg), f * (100 / rg)⟩))) (pyLower (pyStrip name)) =
          some ⟨c * (100 / rg), p * (100 / rg), cb * (100 / rg), f * (100 / rg)⟩ := by
        rw [pyDictLower, alookup_foldl_dictSet, hsorted]
        simp
      simp only [_match_food, htok, hlook]
      exact ⟨_, rfl⟩
  · have hts : ¬ t * rg ≤ 0 := not_le.mpr (mul_pos ht hrg)
    have ht0 : t ≠ 0 := ne_of_gt ht
    have hrg0 : rg ≠ 0 := ne_of_gt hrg
    have hm : (⟨t * c * (100 / (t * rg)), t * p * (100 / (t * rg)),
        t * cb * (100 / (t * rg)), t * f * (100 / (t * rg))⟩ : Macros) =
        ⟨c * (100 / rg), p * (100 / rg), cb * (100 / rg), f * (100 / rg)⟩ := by
      simp only [Macros.mk.injEq]
      refine ⟨?_, ?_, ?_, ?_⟩ <;> field_simp <;> ring
    simp only [add_reference_food, hname, hrg', hts, if_false, hm]

/-- Witness for C1: adding "Apple" at 200 reference grams to an empty store
and looking up "apple" returns the inputs scaled by 100/200, and doubling
all inputs gives the identical store. -/
theorem C1_add_then_lookup_witness :
    (∃ store' : RefStore,
      add_reference_food ⟨[]⟩ "Apple" 10 20 30 40 200 = Except.ok store' ∧
      ∃ dn, _match_food store' "apple" =
        Except.ok (dn, ⟨10 * (100 / 200), 20 * (100 / 200), 30 * (100 / 200), 40 * (100 / 200)⟩)) ∧
    add_reference_food ⟨[]⟩ "Apple" (2 * 10) (2 * 20) (2 * 30) (2 * 40) (2 * 200) =
      add_reference_food ⟨[]⟩ "Apple" 10 20 30 40 200 :=
  C1_add_then_lookup ⟨[]⟩ "Apple" 10 20 30 40 200 2 "apple"
    (by decide) (by norm_num) (by simp) (by simp) (by decide) (by norm_num)

/-- Counterexample for C1 as stated: with entries "APPLE" and "Apple" both
present, re-adding "APPLE" overwrites the raw entry in place, but the
lowercase cache is rebuilt with the later "Apple" entry winning, so the
subsequent lookup of "apple" returns the old macros (2,2,2,2), not the
newly stored inputs. -/
theorem C1_counterexample :
    (add_reference_food ⟨[("APPLE", ⟨1, 1, 1, 1⟩), ("Apple", ⟨2, 2, 2, 2⟩)]⟩ "APPLE" 5 6 7 8 100).map
        (fun s => _match_food s "apple") =
      Except.ok (Except.ok ("Apple", (⟨2, 2, 2, 2⟩ : Macros))) ∧
    (⟨2, 2, 2, 2⟩ : Macros) ≠ ⟨5 * (100 / 100), 6 * (100 / 100), 7 * (100 / 100), 8 * (100 / 100)⟩ := by
  constructor
  · have h1 : pyStrip "APPLE" = "APPLE" := by decide
    have h3 : pyStrip (pyLower "apple") = "apple" := by decide
    have h4 : pyLower "APPLE" = "apple" := by decide
    have h5 : pyLower "Apple" = "apple" := by decide
    have h6 : leChars "apple".data "apple".data = true := by decide
    have h7 : ¬((100:ℚ) ≤ 0) := by norm_num
    simp [add_reference_food, h1, h7, _match_food, h3, pyDictLower, pyNameMap, dictSet,
      stableSort, insertStable, leLowerName, h4, h5, h6, alookup, List.find?, refDisplayName,
      Except.map]
  · simp only [ne_eq, Macros.mk.injEq, not_and]
    intro h
    norm_num at h

/-! ### Claim C7 -/

/-- C7 (confirmed): over a non-empty meal corpus, `generate_plan` with
`meals_per_day = 3` and `days = 2` returns exactly 2 days of exactly 3
meals each, whatever the filters do; and when the diet-tag/exclusion
filters eliminate every candidate, selection falls back to the whole
(tagged) corpus. -/
theorem C7_plan_shape (meals : List CsvMeal) (startDate : ℤ) (t : MacroTargets)
    (_hne : meals ≠ []) (hmp : t.meals_per_day = 3) :
    (generate_plan meals startDate t 2).length = 2 ∧
    (∀ day ∈ generate_plan meals startDate t 2, day.meals.length = 3) ∧
    ((meals.map setTags).filter (mealSatisfies t) = [] →
      _filter_meals meals t = meals.map setTags) := by
  refine ⟨by simp [generate_plan], ?_, ?_⟩
  · intro day hday
    simp only [generate_plan, List.mem_map, List.mem_range] at hday
    obtain ⟨offset, _, rfl⟩ := hday
    simp only [adjustDay]
    split <;> simp [scaleDay, buildDayRaw, hmp]
  · intro hemp
    simp [_filter_meals, hemp]

/-- Witness for C7 at a one-row corpus with default `meals_per_day = 3`. -/
theorem C7_plan_shape_witness :
    (generate_plan [{ meal_name := "Oats", calories := 1, protein := 1, fat := 1, carbs := 1 }] 0
        { calories := 2000, protein := 140, carbs := 220, fat := 60 } 2).length = 2 ∧
    (∀ day ∈ generate_plan [{ meal_name := "Oats", calories := 1, protein := 1, fat := 1, carbs := 1 }] 0
        { calories := 2000, protein := 140, carbs := 220, fat := 60 } 2, day.meals.length = 3) ∧
    (([{ meal_name := "Oats", calories := 1, protein := 1, fat := 1, carbs := 1 }].map setTags).filter
        (mealSatisfies { calories := 2000, protein := 140, carbs := 220, fat := 60 }) = [] →
      _filter_meals [{ meal_name := "Oats", calories := 1, protein := 1, fat := 1, carbs := 1 }]
        { calories := 2000, protein := 140, carbs := 220, fat := 60 } =
        [{ meal_name := "Oats", calories := 1, protein := 1, fat := 1, carbs := 1 }].map setTags) :=
  C7_plan_shape _ _ _ (by simp) rfl

/-! ### Claim C6 -/

/-- C6 (corrected): every generated day is the round-robin day adjusted as
follows — when its total calories fall below 80% of the target, every
item's quantity and all four macro fields are multiplied by
`scale = max(target, 1200) / max(currentTotal, 1)` and every scaled item is
marked estimated; a day at or above the threshold is left unscaled.  The
denominator is `max(currentTotal, 1)`, not the claim's bare
`currentTotal`: the source guards the division with `max(totals, 1)`, so a
day whose rounded total is below 1 kcal is scaled by a different factor
than the claim states (counterexample below). -/
theorem C6_under_target_scale (meals : List CsvMeal) (startDate : ℤ) (t : MacroTargets)
    (days offset : ℕ) (hoff : offset < days) :
    (generate_plan meals startDate t days)[offset]? =
      some (adjustDay t (buildDayRaw (_filter_meals meals t) (PLAN_MEAL_TYPES t)
        t.meals_per_day (offset * t.meals_per_day) (startDate + offset))) ∧
    (∀ day : PlanDay,
      (dget day.totals "calories" < (t.calories : ℚ) * (4/5) →
        adjustDay t day =
          scaleDay day (max (t.calories : ℚ) 1200 / max (dget day.totals "calories") 1) ∧
        ∀ m ∈ (adjustDay t day).meals, ∀ it ∈ m.items, it.estimated = true) ∧
      (¬ dget day.totals "calories" < (t.calories : ℚ) * (4/5) →
        adjustDay t day = day)) := by
  constructor
  · simp [generate_plan, hoff]
  · intro day
    constructor
    · intro h
      constructor
      · simp [adjustDay, h, clamp_calories]
      · intro m hm it hit
        simp only [adjustDay, if_pos h, scaleDay, List.mem_map] at hm
        obtain ⟨m0, hm0, rfl⟩ := hm
        simp only [List.mem_map] at hit
        obtain ⟨it0, hit0, rfl⟩ := hit
        rfl
    · intro h
      simp [adjustDay, h]

/-- Witness for C6 at an empty corpus, one day, offset 0. -/
theorem C6_under_target_scale_witness :
    (generate_plan [] 0 { calories := 2000, protein := 0, carbs := 0, fat := 0 } 1)[(0:ℕ)]? =
      some (adjustDay { calories := 2000, protein := 0, carbs := 0, fat := 0 }
        (buildDayRaw (_filter_meals [] { calories := 2000, protein := 0, carbs := 0, fat := 0 })
          (PLAN_MEAL_TYPES { calories := 2000, protein := 0, carbs := 0, fat := 0 })
          ({ calories := 2000, protein := 0, carbs := 0, fat := 0 } : MacroTargets).meals_per_day
          (0 * ({ calories := 2000, protein := 0, carbs := 0, fat := 0 } : MacroTargets).meals_per_day)
          (0 + (0 : ℕ)))) ∧
    (∀ day : PlanDay,
      (dget day.totals "calories" <
          ((({ calories := 2000, protein := 0, carbs := 0, fat := 0 } : MacroTargets).calories : ℚ)) * (4/5) →
        adjustDay { calories := 2000, protein := 0, carbs := 0, fat := 0 } day =
          scaleDay day
            (max ((({ calories := 2000, protein := 0, carbs := 0, fat := 0 } : MacroTargets).calories : ℚ)) 1200 /
              max (dget day.totals "calories") 1) ∧
        ∀ m ∈ (adjustDay { calories := 2000, protein := 0, carbs := 0, fat := 0 } day).meals,
          ∀ it ∈ m.items, it.estimated = true) ∧
      (¬ dget day.totals "calories" <
          ((({ calories := 2000, protein := 0, carbs := 0, fat := 0 } : MacroTargets).calories : ℚ)) * (4/5) →
        adjustDay { calories := 2000, protein := 0, carbs := 0, fat := 0 } day = day)) :=
  C6_under_target_scale [] 0 _ 1 0 (by norm_num)

/-- Counterexample for C6 as stated: a corpus row of 1/9000 csv calories
gives a day whose rounded total is 0.3 kcal, below 80% of the 2000 target;
the code scales by `max(2000, 1200) / max(0.3, 1) = 2000` (the first item's
quantity becomes 2000), while the claim's formula `max(2000, 1200) / 0.3`
gives 6666.66…, so the claim's scale does not match the produced items. -/
theorem C6_counterexample :
    (generate_plan [{ meal_name := "Tiny", calories := 1/9000, protein := 0, fat := 0, carbs := 0 }]
        0 { calories := 2000, protein := 0, carbs := 0, fat := 0 } 1).headI.meals.headI.items.headI.quantity = 2000 ∧
    dget (buildDayRaw
        (_filter_meals [{ meal_name := "Tiny", calories := 1/9000, protein := 0, fat := 0, carbs := 0 }]
          { calories := 2000, protein := 0, carbs := 0, fat := 0 })
        (PLAN_MEAL_TYPES { calories := 2000, protein := 0, carbs := 0, fat := 0 }) 3 0 0).totals
      "calories" = 3/10 ∧
    (3/10 : ℚ) < ((2000 : ℤ) : ℚ) * (4/5) ∧
    (2000 : ℚ) ≠ 1 * (max (2000:ℚ) 1200 / (3/10)) := by
  have hb : pybool "" = false := by decide
  have hj : pyJoin "," ([] : List String) = "" := by decide
  have hr3 : List.range 3 = [0, 1, 2] := rfl
  have hr1 : List.range 1 = [0] := rfl
  have hfil : _filter_meals [{ meal_name := "Tiny", calories := 1/9000, protein := 0, fat := 0, carbs := 0 }]
      { calories := 2000, protein := 0, carbs := 0, fat := 0 } =
      [{ meal_name := "Tiny", calories := 1/9000, protein := 0, fat := 0, carbs := 0 }] := by
    simp [_filter_meals, setTags, mealTags, hb, hj, mealSatisfies]
  have hday : buildDayRaw [{ meal_name := "Tiny", calories := 1/9000, protein := 0, fat := 0, carbs := 0 }]
      (PLAN_MEAL_TYPES { calories := 2000, protein := 0, carbs := 0, fat := 0 }) 3 0 0 =
      ⟨0, [_build_plan_meal { meal_name := "Tiny", calories := 1/9000, protein := 0, fat := 0, carbs := 0 } "breakfast",
           _build_plan_meal { meal_name := "Tiny", calories := 1/9000, protein := 0, fat := 0, carbs := 0 } "lunch",
           _build_plan_meal { meal_name := "Tiny", calories := 1/9000, protein := 0, fat := 0, carbs := 0 } "dinner"]⟩ := by
    simp only [buildDayRaw, hr3, List.map_cons, List.map_nil, listPick, PLAN_MEAL_TYPES]
    norm_num [List.getD]
  have htot : (PlanDay.totals
      ⟨0, [_build_plan_meal { meal_name := "Tiny", calories := 1/9000, protein := 0, fat := 0, carbs := 0 } "breakfast",
           _build_plan_meal { meal_name := "Tiny", calories := 1/9000, protein := 0, fat := 0, carbs := 0 } "lunch",
           _build_plan_meal { meal_name := "Tiny", calories := 1/9000, protein := 0, fat := 0, carbs := 0 } "dinner"]⟩) =
      [("calories", 3/10), ("protein_g", 0), ("carb_g", 0), ("fat_g", 0)] := by
    simp [PlanDay.totals, PlanMeal.totals, mealTotals, _build_plan_meal, dget_cons, dget_nil]
    norm_num [round2, roundHalfEven]
  refine ⟨?_, ?_, by norm_num, by norm_num⟩
  · have hcond : dget [("calories", (3/10 : ℚ)), ("protein_g", 0), ("carb_g", 0), ("fat_g", 0)] "calories" = 3/10 := by
      simp [dget_cons]
    have hplan : generate_plan [{ meal_name := "Tiny", calories := 1/9000, protein := 0, fat := 0, carbs := 0 }]
        0 { calories := 2000, protein := 0, carbs := 0, fat := 0 } 1 =
        [adjustDay { calories := 2000, protein := 0, carbs := 0, fat := 0 }
          (buildDayRaw
            (_filter_meals [{ meal_name := "Tiny", calories := 1/9000, protein := 0, fat := 0, carbs := 0 }]
              { calories := 2000, protein := 0, carbs := 0, fat := 0 })
            (PLAN_MEAL_TYPES { calories := 2000, protein := 0, carbs := 0, fat := 0 }) 3 0 0)] := by
      simp [generate_plan, hr1]
    rw [hplan, hfil, hday]
    simp only [adjustDay, htot, hcond]
    rw [if_pos (by norm_num)]
    simp only [scaleDay, _build_plan_meal, List.map_cons, scaleItem, List.headI]
    norm_num [clamp_calories]
  · rw [hfil, hday, htot]
    simp [dget_cons]

end NutriTrack
